import Mathlib

/-!
# Conversation state of the Dialogflow messenger widget

A shallow embedding of the state updates of
`dialogflow-messenger/src/App.tsx`: `updateAgentMessage`, `addMessage` and
`addUserMessage`.

JavaScript values are embedded as follows.

* An optional property (`undefined` when absent) is an `Option`.
* An array is a `List`; the read `xs[i]` is `xs[i]?`, `none` standing for
  `undefined`.
* Reading a property of `undefined` throws a `TypeError`; the updater then
  returns `Except.error JsError.typeError`.
* Objects and arrays are truthy, so `x && e` with `x` an optional object or
  array evaluates `e` exactly when `x` is present.
* React state is passed explicitly as an `AppState`.
-/

set_option autoImplicit false

namespace DialogflowMessenger

/-- The exception a JavaScript engine raises on `undefined.prop`. -/
inductive JsError where
  | typeError
  deriving DecidableEq

deriving instance DecidableEq for Except

/-- Modelled from the spec: the `type` of a `Message` in `utilities/types`,
whose declaration is not part of the sources (`role: enum {user, agent}`). -/
inductive MessageType where
  | user
  | agent
  deriving DecidableEq

/-- Modelled from the spec: a structured payload is opaque to the component;
`richContent[0]` is a list of rich elements, each kept in serialised form. -/
abbrev ContentList := List String

/-- Modelled from the spec: `Message` of `utilities/types` (declaration not
part of the sources), with the four properties `App.tsx` reads and writes. -/
structure Message where
  type : MessageType
  text : Option String
  id : Option String
  payload : Option ContentList
  deriving DecidableEq

/-- Modelled from the spec: the `text` property of a response item,
`{text: [string, ...]}`. -/
structure TextField where
  text : Option (List String)
  deriving DecidableEq

/-- Modelled from the spec: the `payload` property of a response item,
`{richContent: [[...]]}`. -/
structure PayloadField where
  richContent : Option (List ContentList)
  deriving DecidableEq

/-- Modelled from the spec: one item of `responseMessages`. -/
structure ResponseMessage where
  text : Option TextField
  payload : Option PayloadField
  deriving DecidableEq

/-- Modelled from the spec: `queryResult` of an `APIResponse`. -/
structure QueryResult where
  text : Option String
  responseMessages : Option (List ResponseMessage)
  deriving DecidableEq

/-- Modelled from the spec: `APIResponse` of `utilities/types`; the failure
response `{}` is the one without `queryResult`, the only response for which
`JSON.stringify(response) === '{}'`. -/
structure APIResponse where
  queryResult : Option QueryResult
  deriving DecidableEq

/-- The React state of `App` that the three operations touch:
`messages`, `value` (the input buffer) and `error`. -/
structure AppState where
  messages : List Message
  value : String
  error : Bool
  deriving DecidableEq

/-- The lookup predicate of a mode, the negation of the loop condition of
lines 62-65: in event mode the text is still `'...'`, otherwise the `id`
equals `messageSent`. -/
def matchesLookup (fromEvent : Bool) (messageSent : String) (m : Message) : Bool :=
  if fromEvent then m.text == some "..." else m.id == some messageSent

/-- The `while` loop of lines 61-68, started with `lastAgentIndex = i`:
it decrements while the index is positive and the loop condition holds. -/
def lastAgentIndex (fromEvent : Bool) (messageSent : String)
    (messagesCopy : List Message) : Nat → Except JsError Nat
  | 0 => .ok 0
  | i + 1 =>
    match messagesCopy[i + 1]? with
    | none => .error .typeError
    | some m =>
      if (if fromEvent then m.text != some "..." else m.id != some messageSent) then
        lastAgentIndex fromEvent messageSent messagesCopy i
      else
        .ok (i + 1)

/-- The guard of line 70 on the message the scan stopped at. -/
def guard70 (fromEvent : Bool) (messageSent : String) (m : Message) : Bool :=
  m.id == some messageSent || (fromEvent && m.text == some "...")

/-- Lines 71-83: the first response item replaces the content of the
target message. -/
def resolve (responseMessages : List ResponseMessage) (target : Message) :
    Except JsError Message :=
  match responseMessages[0]? with
  | none => .error .typeError
  | some responseMessage =>
    match responseMessage.text with
    | some t =>
      match t.text with
      | none => .error .typeError
      | some responseText => .ok { target with text := responseText[0]?, id := none }
    | none =>
      match responseMessage.payload with
      | some p =>
        let richContent := p.richContent.getD []
        .ok { target with text := none, id := none, payload := richContent[0]? }
      | none => .ok target

/-- Lines 88-97: the body of the `for` loop, for one response item. -/
def pushItem (messagesCopy : List Message) (message : ResponseMessage) : List Message :=
  match message.text with
  | some t =>
    match t.text with
    | some responseText => messagesCopy ++ [⟨.agent, responseText[0]?, none, none⟩]
    | none => messagesCopy
  | none =>
    match message.payload with
    | some p =>
      match (p.richContent.getD [])[0]? with
      | some contentList => messagesCopy ++ [⟨.agent, none, none, some contentList⟩]
      | none => messagesCopy
    | none => messagesCopy

/-- Lines 87-99: the `for` loop over `responseMessages[1 ..]`. -/
def appendLoop (responseMessages : List ResponseMessage) (messagesCopy : List Message) :
    List Message :=
  (responseMessages.drop 1).foldl pushItem messagesCopy

/-- Lines 48-101: the state update of `updateAgentMessage`. -/
def updateAgentMessage (response : APIResponse) (fromEvent : Bool) (s : AppState) :
    Except JsError AppState :=
  match response.queryResult with
  | none =>
    .ok { s with messages := s.messages.filter (fun m => m.text != some "..."), error := true }
  | some queryResult =>
    let messagesCopy := s.messages
    let messageSent := queryResult.text.getD ""
    let responseMessages := queryResult.responseMessages.getD []
    match messagesCopy.length with
    | 0 => .error .typeError
    | n + 1 =>
      match lastAgentIndex fromEvent messageSent messagesCopy n with
      | .error err => .error err
      | .ok j =>
        match messagesCopy[j]? with
        | none => .error .typeError
        | some target =>
          if guard70 fromEvent messageSent target then
            match resolve responseMessages target with
            | .error err => .error err
            | .ok resolved =>
              .ok { s with messages := appendLoop responseMessages (messagesCopy.set j resolved) }
          else
            .ok { s with messages := appendLoop responseMessages messagesCopy }

/-- Lines 116-119: `addMessage` appends `{type, text, id}` and clears the
input buffer. -/
def addMessage (m : Message) (s : AppState) : AppState :=
  { s with messages := s.messages ++ [⟨m.type, m.text, m.id, none⟩], value := "" }

/-- Lines 107-109: the two updates `addUserMessage` issues before it awaits
the response. -/
def addUserMessageBeforeResponse (s : AppState) : AppState :=
  let textVal := s.value
  addMessage ⟨.agent, some "...", some textVal, none⟩
    (addMessage ⟨.user, some textVal, none, none⟩ s)

/-- Lines 106-114: `addUserMessage`, the awaited response of the external
`handleResponse` call being the parameter `response`. -/
def addUserMessage (response : APIResponse) (s : AppState) : Except JsError AppState :=
  updateAgentMessage response false (addUserMessageBeforeResponse s)

/-- The shape of a response item in the external contract: a text item
`{text: {text: [string, ...]}}` with at least one string, or a payload item
`{payload: {richContent: [[...], ...]}}` with at least one content list. -/
def wellFormedItem (item : ResponseMessage) : Bool :=
  match item.text with
  | some t =>
    match t.text with
    | some (_ :: _) => true
    | _ => false
  | none =>
    match item.payload with
    | some p =>
      match p.richContent with
      | some (_ :: _) => true
      | _ => false
    | none => false

/-- A response with a single text item. -/
def textResponse (t : String) (texts : List String) : APIResponse :=
  ⟨some ⟨some t, some [⟨some ⟨some texts⟩, none⟩]⟩⟩

/-- A log with two placeholders for the same text, used to exercise the
lookup. -/
def twoPending : List Message :=
  [⟨.agent, some "...", some "hi", none⟩, ⟨.user, some "again", none, none⟩,
    ⟨.agent, some "...", some "hi", none⟩]

/-- Three well-formed items: a text, a payload and a text. -/
def threeItems : List ResponseMessage :=
  [⟨some ⟨some ["a"]⟩, none⟩, ⟨none, some ⟨some [["card"]]⟩⟩, ⟨some ⟨some ["b"]⟩, none⟩]

/-- The first response item can be read by lines 71-75: it exists, and when
it is a text item it has a text list. -/
def firstItemReadable (responseMessages : List ResponseMessage) : Bool :=
  match responseMessages[0]? with
  | none => false
  | some first =>
    match first.text with
    | some t => t.text.isSome
    | none => true

/-- Where a message at index `i` ends up after the failure filter: behind
the kept messages among the first `i`. -/
def indexAfterFailure (L : List Message) (i : Nat) : Nat :=
  ((L.take i).filter (fun m => m.text != some "...")).length

/-- The calls that change the log: `addMessage` (lines 116-119),
`updateAgentMessage` (lines 48-101) with its optional `fromEvent`, and a
whole round of `addUserMessage` (lines 106-114) with the awaited response. -/
inductive Op where
  | addMessage (m : Message)
  | updateAgentMessage (response : APIResponse) (fromEvent : Bool)
  | addUserMessage (response : APIResponse)

/-- One call applied to the state. -/
def step (op : Op) (s : AppState) : Except JsError AppState :=
  match op with
  | .addMessage m => .ok (addMessage m s)
  | .updateAgentMessage response fromEvent => updateAgentMessage response fromEvent s
  | .addUserMessage response => addUserMessage response s

/-- A sequence of calls applied in order; it stops at the first
`TypeError`. -/
def run (ops : List Op) (s : AppState) : Except JsError AppState :=
  match ops with
  | [] => .ok s
  | op :: rest =>
    match step op s with
    | .error err => .error err
    | .ok s' => run rest s'

/-! ## The backward scan -/

theorem loopCondition_eq (fromEvent : Bool) (messageSent : String) (m : Message) :
    (if fromEvent then m.text != some "..." else m.id != some messageSent)
      = !matchesLookup fromEvent messageSent m := by
  cases fromEvent <;> simp [matchesLookup, bne]

theorem lastAgentIndex_spec (fromEvent : Bool) (messageSent : String) (L : List Message) :
    ∀ n, n < L.length →
      ∃ j, lastAgentIndex fromEvent messageSent L n = .ok j ∧ j ≤ n ∧
        (∀ k m, j < k → k ≤ n → L[k]? = some m → matchesLookup fromEvent messageSent m = false) ∧
        (0 < j → ∃ m, L[j]? = some m ∧ matchesLookup fromEvent messageSent m = true) := by
  intro n
  induction n with
  | zero =>
    intro _
    refine ⟨0, rfl, le_refl _, ?_, ?_⟩
    · intro k m h1 h2; omega
    · intro h; omega
  | succ n ih =>
    intro hn
    obtain ⟨m, hm⟩ : ∃ m, L[n + 1]? = some m := ⟨L[n + 1], by simp [hn]⟩
    by_cases hc : matchesLookup fromEvent messageSent m = true
    · refine ⟨n + 1, ?_, le_refl _, ?_, ?_⟩
      · simp [lastAgentIndex, hm, loopCondition_eq, hc]
      · intro k m' h1 h2; omega
      · intro _; exact ⟨m, hm, hc⟩
    · have hc' : matchesLookup fromEvent messageSent m = false := by simpa using hc
      obtain ⟨j, hj, hle, hall, hpos⟩ := ih (by omega)
      refine ⟨j, ?_, by omega, ?_, hpos⟩
      · simp [lastAgentIndex, hm, loopCondition_eq, hc', hj]
      · intro k m' h1 h2 hk
        by_cases hk' : k = n + 1
        · subst hk'
          rw [hm] at hk
          cases hk
          exact hc'
        · exact hall k m' h1 (by omega) hk

/-- The target of the scan on a non-empty log: the index the loop stops at
and the message there. -/
theorem scan_target (fromEvent : Bool) (messageSent : String) (L : List Message)
    (hL : L ≠ []) :
    ∃ j target, lastAgentIndex fromEvent messageSent L (L.length - 1) = .ok j ∧
      L[j]? = some target ∧
      (∀ k m, j < k → L[k]? = some m → matchesLookup fromEvent messageSent m = false) ∧
      (0 < j → matchesLookup fromEvent messageSent target = true) := by
  have hlen : 0 < L.length := List.length_pos.mpr hL
  obtain ⟨j, hj, hle, hall, hpos⟩ :=
    lastAgentIndex_spec fromEvent messageSent L (L.length - 1) (by omega)
  have hjlt : j < L.length := by omega
  refine ⟨j, L[j], hj, by simp [hjlt], ?_, ?_⟩
  · intro k m hk hm
    have hklt : k < L.length := by
      by_contra hge
      rw [List.getElem?_eq_none (by omega)] at hm
      cases hm
    exact hall k m hk (by omega) hm
  · intro h0
    obtain ⟨m, hm, hmatch⟩ := hpos h0
    have : L[j]? = some L[j] := by simp [hjlt]
    rw [this] at hm
    cases hm
    exact hmatch

/-- The non-failure branch of `updateAgentMessage` on a non-empty log, in
terms of the scan target. -/
theorem updateAgentMessage_nonfailure (L : List Message) (v : String) (e : Bool)
    (r : APIResponse) (qr : QueryResult) (fromEvent : Bool)
    (hL : L ≠ []) (hr : r.queryResult = some qr) (j : Nat) (target : Message)
    (hj : lastAgentIndex fromEvent (qr.text.getD "") L (L.length - 1) = .ok j)
    (ht : L[j]? = some target) :
    updateAgentMessage r fromEvent ⟨L, v, e⟩ =
      if guard70 fromEvent (qr.text.getD "") target then
        (resolve (qr.responseMessages.getD []) target).map
          (fun t => ⟨appendLoop (qr.responseMessages.getD []) (L.set j t), v, e⟩)
      else .ok ⟨appendLoop (qr.responseMessages.getD []) L, v, e⟩ := by
  obtain ⟨n, hn⟩ : ∃ n, L.length = n + 1 :=
    ⟨L.length - 1, by have := List.length_pos.mpr hL; omega⟩
  have hn' : L.length - 1 = n := by omega
  rw [hn'] at hj
  unfold updateAgentMessage
  simp only [hr]
  split
  · rename_i h0; omega
  · rename_i n' hn2
    have : n' = n := by omega
    subst this
    simp only [hj, ht]
    split
    · cases h : resolve (qr.responseMessages.getD []) target <;> simp [Except.map]
    · rfl

/-! ## The append loop -/

theorem foldl_pushItem (items : List ResponseMessage) (M : List Message) :
    items.foldl pushItem M = M ++ items.foldl pushItem [] := by
  induction items using List.reverseRecOn generalizing M with
  | nil => simp
  | append_singleton xs x ih =>
    simp only [List.foldl_append, List.foldl_cons, List.foldl_nil]
    rw [ih M]
    generalize xs.foldl pushItem [] = A
    unfold pushItem
    split
    · split <;> simp
    · split
      · split <;> simp
      · simp

theorem appendLoop_eq (rms : List ResponseMessage) (M : List Message) :
    appendLoop rms M = M ++ appendLoop rms [] := by
  unfold appendLoop
  exact foldl_pushItem _ M

/-! ## Auxiliary facts on the lookup predicate -/

theorem guard70_of_matchesLookup (fromEvent : Bool) (messageSent : String) (m : Message)
    (h : matchesLookup fromEvent messageSent m = true) :
    guard70 fromEvent messageSent m = true := by
  cases fromEvent <;> simp_all [matchesLookup, guard70]

/-- When some message of the log satisfies the lookup predicate, the scan
stops on the last such message. -/
theorem scan_target_of_match (fromEvent : Bool) (messageSent : String) (L : List Message)
    (hex : ∃ m ∈ L, matchesLookup fromEvent messageSent m = true) :
    ∃ j target, lastAgentIndex fromEvent messageSent L (L.length - 1) = .ok j ∧
      L[j]? = some target ∧ matchesLookup fromEvent messageSent target = true ∧
      (∀ k m, j < k → L[k]? = some m → matchesLookup fromEvent messageSent m = false) := by
  obtain ⟨m, hmem, hm⟩ := hex
  have hL : L ≠ [] := List.ne_nil_of_mem hmem
  obtain ⟨j, target, hj, ht, hall, hpos⟩ := scan_target fromEvent messageSent L hL
  refine ⟨j, target, hj, ht, ?_, hall⟩
  rcases Nat.eq_zero_or_pos j with h0 | h0
  · obtain ⟨k, hk, hkm⟩ := List.getElem_of_mem hmem
    rcases Nat.eq_zero_or_pos k with hk0 | hk0
    · subst hk0
      subst h0
      have : L[0]? = some m := by rw [← hkm]; simp [hk]
      rw [this] at ht
      cases ht
      exact hm
    · have hkm' : L[k]? = some m := by rw [← hkm]; simp [hk]
      have := hall k m (by omega) hkm'
      rw [hm] at this
      cases this
  · exact hpos h0

/-! ## Resolution of a pending placeholder -/

/-- Counterexample to C1: the log holds the pending placeholder for `t`
and, after it, a user message that also carries the id `t`. The response
for `t` rewrites the user message; the placeholder stays pending. -/
theorem resolves_last_id_counterexample :
    (⟨.agent, some "...", some "t", none⟩ : Message)
      ∈ [(⟨.agent, some "...", some "t", none⟩ : Message),
          ⟨.user, some "note", some "t", none⟩] ∧
    updateAgentMessage (textResponse "t" ["s"]) false
        ⟨[⟨.agent, some "...", some "t", none⟩, ⟨.user, some "note", some "t", none⟩],
          "", false⟩
      = .ok ⟨[⟨.agent, some "...", some "t", none⟩, ⟨.user, some "s", none, none⟩],
          "", false⟩ := by
  decide

/-- C1 as amended: when the log holds a message with id `t` (a pending
placeholder for `t` in particular) and a non-event response carries
`queryResult.text = t` and a single text item whose list starts with `s`,
the update returns a log of the same length in which the last message
whose id is `t` has text `s` and no id, and every other message is as
before. A pending placeholder with id `t` that no later message with id `t`
follows is that message, so it is the one resolved. -/
theorem updateAgentMessage_resolves_text (L : List Message) (v : String) (e : Bool)
    (t s : String) (rest : List String) (r : APIResponse) (qr : QueryResult)
    (item : ResponseMessage)
    (hp : ∃ p ∈ L, p.id = some t)
    (hr : r.queryResult = some qr) (hqt : qr.text = some t)
    (hrm : qr.responseMessages = some [item])
    (hitem : item.text = some ⟨some (s :: rest)⟩) :
    ∃ j target s',
      L[j]? = some target ∧ target.id = some t ∧
      (∀ k m, j < k → L[k]? = some m → m.id ≠ some t) ∧
      updateAgentMessage r false ⟨L, v, e⟩ = .ok s' ∧
      s' = ⟨L.set j { target with text := some s, id := none }, v, e⟩ ∧
      s'.messages.length = L.length ∧
      s'.messages[j]? = some { target with text := some s, id := none } ∧
      (∀ i, i ≠ j → s'.messages[i]? = L[i]?) ∧
      (∀ i p, L[i]? = some p → p.type = MessageType.agent → p.text = some "..." →
        p.id = some t → (∀ k m, i < k → L[k]? = some m → m.id ≠ some t) →
        j = i ∧ target = p ∧
          s'.messages[i]? = some ⟨.agent, some s, none, p.payload⟩) := by
  have hex : ∃ m ∈ L, matchesLookup false t m = true := by
    obtain ⟨p, hmem, hid⟩ := hp
    exact ⟨p, hmem, by simp [matchesLookup, hid]⟩
  have hL : L ≠ [] := by
    obtain ⟨p, hmem, _⟩ := hp
    exact List.ne_nil_of_mem hmem
  obtain ⟨j, target, hj, ht, hmatch, hall⟩ := scan_target_of_match false t L hex
  have hjlt : j < L.length := by
    by_contra hge
    rw [List.getElem?_eq_none (by omega)] at ht
    cases ht
  have hms : qr.text.getD "" = t := by simp [hqt]
  have hupd := updateAgentMessage_nonfailure L v e r qr false hL hr j target
    (by rw [hms]; exact hj) ht
  rw [hms, guard70_of_matchesLookup false t target hmatch] at hupd
  have hres : resolve (qr.responseMessages.getD []) target
      = .ok { target with text := some s, id := none } := by
    simp [hrm, resolve, hitem]
  have happ : ∀ M, appendLoop (qr.responseMessages.getD []) M = M := by
    intro M; simp [hrm, appendLoop]
  have htid : target.id = some t := by simpa [matchesLookup] using hmatch
  have hlast : ∀ k m, j < k → L[k]? = some m → m.id ≠ some t := by
    intro k m hk hm
    have := hall k m hk hm
    simpa [matchesLookup] using this
  refine ⟨j, target, ⟨L.set j { target with text := some s, id := none }, v, e⟩,
    ht, htid, hlast, ?_, rfl, by simp, by simp [hjlt], ?_, ?_⟩
  · rw [hupd]
    simp [hres, Except.map, happ]
  · intro i hij
    simp [List.getElem?_set, Ne.symm hij]
  · intro i p hip hty htx hpid hafter
    have hji : j = i := by
      rcases Nat.lt_trichotomy j i with h | h | h
      · exact absurd hpid (hlast i p h hip)
      · exact h
      · exact absurd htid (hafter j target h ht)
    subst hji
    rw [ht] at hip
    cases hip
    refine ⟨rfl, rfl, ?_⟩
    obtain ⟨ty, tx, pid, pl⟩ := target
    simp only at hty
    subst hty
    simp [hjlt]

/-- Witness of C1 as amended: the scenario of the specification, `hello`
answered by `hi there`. -/
theorem updateAgentMessage_resolves_text_witness :
    ((∃ p ∈ [(⟨.user, some "hello", none, none⟩ : Message),
        ⟨.agent, some "...", some "hello", none⟩], p.id = some "hello") ∧
      updateAgentMessage (textResponse "hello" ["hi there"]) false
          ⟨[⟨.user, some "hello", none, none⟩, ⟨.agent, some "...", some "hello", none⟩],
            "", false⟩
        = .ok ⟨[⟨.user, some "hello", none, none⟩, ⟨.agent, some "hi there", none, none⟩],
            "", false⟩) ∧
    ∃ j target s',
      [(⟨.user, some "hello", none, none⟩ : Message),
        ⟨.agent, some "...", some "hello", none⟩][j]? = some target ∧
      target.id = some "hello" ∧
      (∀ k m, j < k →
        [(⟨.user, some "hello", none, none⟩ : Message),
          ⟨.agent, some "...", some "hello", none⟩][k]? = some m → m.id ≠ some "hello") ∧
      updateAgentMessage (textResponse "hello" ["hi there"]) false
        ⟨[⟨.user, some "hello", none, none⟩, ⟨.agent, some "...", some "hello", none⟩], "", false⟩
        = .ok s' ∧
      s' = ⟨[(⟨.user, some "hello", none, none⟩ : Message),
          ⟨.agent, some "...", some "hello", none⟩].set j
            { target with text := some "hi there", id := none }, "", false⟩ ∧
      s'.messages.length = [(⟨.user, some "hello", none, none⟩ : Message),
          ⟨.agent, some "...", some "hello", none⟩].length ∧
      s'.messages[j]? = some { target with text := some "hi there", id := none } ∧
      (∀ i, i ≠ j → s'.messages[i]? =
        [(⟨.user, some "hello", none, none⟩ : Message),
          ⟨.agent, some "...", some "hello", none⟩][i]?) ∧
      (∀ i p, [(⟨.user, some "hello", none, none⟩ : Message),
          ⟨.agent, some "...", some "hello", none⟩][i]? = some p →
        p.type = MessageType.agent → p.text = some "..." → p.id = some "hello" →
        (∀ k m, i < k → [(⟨.user, some "hello", none, none⟩ : Message),
          ⟨.agent, some "...", some "hello", none⟩][k]? = some m → m.id ≠ some "hello") →
        j = i ∧ target = p ∧
          s'.messages[i]? = some ⟨.agent, some "hi there", none, p.payload⟩) :=
  ⟨⟨⟨⟨.agent, some "...", some "hello", none⟩, by simp, rfl⟩, by decide⟩,
   updateAgentMessage_resolves_text _ "" false "hello" "hi there" []
    (textResponse "hello" ["hi there"])
    ⟨some "hello", some [⟨some ⟨some ["hi there"]⟩, none⟩]⟩
    ⟨some ⟨some ["hi there"]⟩, none⟩
    ⟨⟨.agent, some "...", some "hello", none⟩, by simp, rfl⟩ rfl rfl rfl rfl⟩

/-! ## Submitting a user message -/

/-- C2: the two updates `addUserMessage` issues before the response arrives
turn a log `L` with input text `t` into `L` followed by the user message
`t` and the placeholder `'...'` with id `t`: exactly two messages are
appended, in that order, and `L` is an unchanged prefix. This holds for
every `t`, the non-empty ones included. -/
theorem addUserMessage_appends_two (L : List Message) (t : String) (e : Bool) :
    (addUserMessageBeforeResponse ⟨L, t, e⟩).messages
        = L ++ [⟨.user, some t, none, none⟩, ⟨.agent, some "...", some t, none⟩] ∧
      (addUserMessageBeforeResponse ⟨L, t, e⟩).messages.length = L.length + 2 ∧
      (addUserMessageBeforeResponse ⟨L, t, e⟩).messages.take L.length = L := by
  simp [addUserMessageBeforeResponse, addMessage]

/-! ## The failure response -/

/-- Counterexample to C3: with two pending placeholders in the log the
failure response `{}` removes both of them, not exactly one. -/
theorem failure_removes_all_counterexample :
    updateAgentMessage ⟨none⟩ false
      ⟨[⟨.user, some "a", none, none⟩, ⟨.agent, some "...", some "a", none⟩,
        ⟨.user, some "b", none, none⟩, ⟨.agent, some "...", some "b", none⟩], "", false⟩
      = .ok ⟨[⟨.user, some "a", none, none⟩, ⟨.user, some "b", none, none⟩], "", true⟩ := by
  decide

/-- C3 as amended: on the failure response `{}`, in either mode, the update
returns the log without any message whose text is the pending marker
`'...'` (every pending placeholder is removed, not only the first), keeps
every other message in its original order, and sets the error flag. -/
theorem failure_removes_every_placeholder (L : List Message) (v : String) (e : Bool)
    (fromEvent : Bool) :
    ∃ s', updateAgentMessage ⟨none⟩ fromEvent ⟨L, v, e⟩ = .ok s' ∧
      s'.error = true ∧ s'.value = v ∧
      s'.messages = L.filter (fun m => m.text != some "...") ∧
      (∀ m, m ∈ s'.messages ↔ m ∈ L ∧ m.text ≠ some "...") ∧
      s'.messages.Sublist L ∧
      s'.messages.length + L.countP (fun m => m.text == some "...") = L.length := by
  refine ⟨⟨L.filter (fun m => m.text != some "..."), v, true⟩, rfl, rfl, rfl, rfl, ?_,
    List.filter_sublist L, ?_⟩
  · intro m
    simp [List.mem_filter]
  · show (L.filter (fun m => m.text != some "...")).length + _ = _
    induction L with
    | nil => simp
    | cons a t ih =>
      by_cases h : a.text = some "..."
      · simp [List.filter_cons, List.countP_cons, h] at ih ⊢
        omega
      · simp [List.filter_cons, List.countP_cons, h] at ih ⊢
        omega

/-! ## Which message is resolved -/

/-- C4: on a non-empty log and a non-failure response, when some message
satisfies the lookup predicate of the mode (event mode: text still `'...'`;
otherwise: id equal to the response's `queryResult.text`), the message the
update resolves in place is the one at the greatest index satisfying the
predicate: the update is the resolution of that message by the first
response item, put back at the same index, followed by the append loop. -/
theorem updateAgentMessage_targets_last_match (L : List Message) (v : String) (e : Bool)
    (r : APIResponse) (qr : QueryResult) (fromEvent : Bool)
    (hL : L ≠ []) (hr : r.queryResult = some qr)
    (hex : ∃ m ∈ L, matchesLookup fromEvent (qr.text.getD "") m = true) :
    ∃ j target, L[j]? = some target ∧
      matchesLookup fromEvent (qr.text.getD "") target = true ∧
      (∀ k m, j < k → L[k]? = some m → matchesLookup fromEvent (qr.text.getD "") m = false) ∧
      updateAgentMessage r fromEvent ⟨L, v, e⟩ =
        (resolve (qr.responseMessages.getD []) target).map
          (fun t => ⟨appendLoop (qr.responseMessages.getD []) (L.set j t), v, e⟩) := by
  obtain ⟨j, target, hj, ht, hmatch, hall⟩ :=
    scan_target_of_match fromEvent (qr.text.getD "") L hex
  refine ⟨j, target, ht, hmatch, hall, ?_⟩
  rw [updateAgentMessage_nonfailure L v e r qr fromEvent hL hr j target hj ht,
    guard70_of_matchesLookup _ _ _ hmatch]
  simp

/-- Witness of C4: of two placeholders with id `hi` the later one, at index
2, is the one resolved. -/
theorem updateAgentMessage_targets_last_match_witness :
    (twoPending ≠ [] ∧
      (textResponse "hi" ["yo"]).queryResult
        = some ⟨some "hi", some [⟨some ⟨some ["yo"]⟩, none⟩]⟩ ∧
      updateAgentMessage (textResponse "hi" ["yo"]) false ⟨twoPending, "", false⟩
        = .ok ⟨[⟨.agent, some "...", some "hi", none⟩, ⟨.user, some "again", none, none⟩,
            ⟨.agent, some "yo", none, none⟩], "", false⟩) ∧
    ∃ j target, twoPending[j]? = some target ∧
      matchesLookup false ((some "hi" : Option String).getD "") target = true ∧
      (∀ k m, j < k → twoPending[k]? = some m →
        matchesLookup false ((some "hi" : Option String).getD "") m = false) ∧
      updateAgentMessage (textResponse "hi" ["yo"]) false ⟨twoPending, "", false⟩ =
        (resolve ((some [⟨some ⟨some ["yo"]⟩, none⟩] : Option (List ResponseMessage)).getD [])
            target).map
          (fun t => ⟨appendLoop
            ((some [⟨some ⟨some ["yo"]⟩, none⟩] : Option (List ResponseMessage)).getD [])
            (twoPending.set j t), "", false⟩) :=
  ⟨⟨by decide, rfl, by decide⟩,
   updateAgentMessage_targets_last_match twoPending "" false (textResponse "hi" ["yo"])
    ⟨some "hi", some [⟨some ⟨some ["yo"]⟩, none⟩]⟩ false (by decide) rfl
    ⟨⟨.agent, some "...", some "hi", none⟩, by simp [twoPending], by decide⟩⟩

/-! ## The scan without a match -/

/-- Counterexample to C7: in the log `[user "hi"]` no message has id `x`;
the scan stops at index 0, the guard of line 70 fails there, and the
message at index 0 keeps its content instead of receiving the first
response item `a`. -/
theorem unmatched_not_applied_counterexample :
    (∀ m ∈ [(⟨.user, some "hi", none, none⟩ : Message)], matchesLookup false "x" m = false) ∧
    lastAgentIndex false "x" [⟨.user, some "hi", none, none⟩] 0 = .ok 0 ∧
    updateAgentMessage (textResponse "x" ["a"]) false
        ⟨[⟨.user, some "hi", none, none⟩], "", false⟩
      = .ok ⟨[⟨.user, some "hi", none, none⟩], "", false⟩ := by
  decide

/-- C7 as amended: on a non-empty log in which no message satisfies the
lookup predicate, and for every non-failure response, the scan stops at
index 0 and the guard of line 70 is evaluated on the message at index 0. The
update is applied to that message only when the guard holds, which needs
event mode and an id equal to the response's `queryResult.text`; in every
other case, the whole of non-event mode included, no message is updated and
the log is the old one followed by the messages of the append loop. -/
theorem unmatched_scan_stops_at_zero (L : List Message) (v : String) (e : Bool)
    (r : APIResponse) (qr : QueryResult) (fromEvent : Bool)
    (hL : L ≠ []) (hr : r.queryResult = some qr)
    (hno : ∀ m ∈ L, matchesLookup fromEvent (qr.text.getD "") m = false) :
    ∃ oldest, L[0]? = some oldest ∧
      lastAgentIndex fromEvent (qr.text.getD "") L (L.length - 1) = .ok 0 ∧
      (guard70 fromEvent (qr.text.getD "") oldest = true ↔
        (fromEvent = true ∧ oldest.id = some (qr.text.getD ""))) ∧
      (guard70 fromEvent (qr.text.getD "") oldest = false →
        updateAgentMessage r fromEvent ⟨L, v, e⟩
          = .ok ⟨L ++ appendLoop (qr.responseMessages.getD []) [], v, e⟩) ∧
      (guard70 fromEvent (qr.text.getD "") oldest = true →
        updateAgentMessage r fromEvent ⟨L, v, e⟩
          = (resolve (qr.responseMessages.getD []) oldest).map
              (fun t => ⟨appendLoop (qr.responseMessages.getD []) (L.set 0 t), v, e⟩)) := by
  obtain ⟨j, target, hj, ht, hall, hpos⟩ := scan_target fromEvent (qr.text.getD "") L hL
  have hj0 : j = 0 := by
    rcases Nat.eq_zero_or_pos j with h0 | h0
    · exact h0
    · have h1 := hpos h0
      have hmem : target ∈ L := List.getElem?_mem ht
      rw [hno target hmem] at h1
      cases h1
  subst hj0
  have hnm := hno target (List.getElem?_mem ht)
  have hupd := updateAgentMessage_nonfailure L v e r qr fromEvent hL hr 0 target hj ht
  refine ⟨target, ht, hj, ?_, ?_, ?_⟩
  · cases fromEvent <;> simp_all [matchesLookup, guard70]
  · intro hg
    rw [hupd, hg, appendLoop_eq]
    simp
  · intro hg
    rw [hupd, hg]
    simp

/-- Witness of C7 as amended: the unmatched response leaves `[user "hi"]`
as it is. -/
theorem unmatched_scan_stops_at_zero_witness :
    ([(⟨.user, some "hi", none, none⟩ : Message)] ≠ [] ∧
      (∀ m ∈ [(⟨.user, some "hi", none, none⟩ : Message)],
        matchesLookup false ((some "x" : Option String).getD "") m = false)) ∧
    ∃ oldest, [(⟨.user, some "hi", none, none⟩ : Message)][0]? = some oldest ∧
      lastAgentIndex false ((some "x" : Option String).getD "")
        [⟨.user, some "hi", none, none⟩]
        ([(⟨.user, some "hi", none, none⟩ : Message)].length - 1) = .ok 0 ∧
      (guard70 false ((some "x" : Option String).getD "") oldest = true ↔
        (false = true ∧ oldest.id = some ((some "x" : Option String).getD ""))) ∧
      (guard70 false ((some "x" : Option String).getD "") oldest = false →
        updateAgentMessage (textResponse "x" ["a"]) false
            ⟨[⟨.user, some "hi", none, none⟩], "", false⟩
          = .ok ⟨[(⟨.user, some "hi", none, none⟩ : Message)] ++ appendLoop
              ((some [⟨some ⟨some ["a"]⟩, none⟩] : Option (List ResponseMessage)).getD []) [],
              "", false⟩) ∧
      (guard70 false ((some "x" : Option String).getD "") oldest = true →
        updateAgentMessage (textResponse "x" ["a"]) false
            ⟨[⟨.user, some "hi", none, none⟩], "", false⟩
          = (resolve ((some [⟨some ⟨some ["a"]⟩, none⟩] : Option (List ResponseMessage)).getD [])
              oldest).map
              (fun t => ⟨appendLoop
                ((some [⟨some ⟨some ["a"]⟩, none⟩] : Option (List ResponseMessage)).getD [])
                ([(⟨.user, some "hi", none, none⟩ : Message)].set 0 t), "", false⟩)) :=
  ⟨⟨by decide, by decide⟩,
   unmatched_scan_stops_at_zero [⟨.user, some "hi", none, none⟩] "" false
    (textResponse "x" ["a"]) ⟨some "x", some [⟨some ⟨some ["a"]⟩, none⟩]⟩ false
    (by decide) rfl (by decide)⟩

/-! ## Responses with several items -/

/-- A well-formed item makes the loop body push exactly one agent message,
holding the first text or the first content list. -/
theorem pushItem_wellFormed (item : ResponseMessage) (h : wellFormedItem item = true) :
    ∃ m, (∀ M, pushItem M item = M ++ [m]) ∧ m.type = MessageType.agent ∧ m.id = none ∧
      ((m.text.isSome = true ∧ m.payload = none) ∨
        (m.text = none ∧ m.payload.isSome = true)) := by
  obtain ⟨text, payload⟩ := item
  cases text with
  | some t =>
    obtain ⟨l⟩ := t
    cases l with
    | none => simp [wellFormedItem] at h
    | some l =>
      cases l with
      | nil => simp [wellFormedItem] at h
      | cons x xs =>
        exact ⟨⟨.agent, some x, none, none⟩, by intro M; simp [pushItem], rfl, rfl,
          Or.inl ⟨rfl, rfl⟩⟩
  | none =>
    cases payload with
    | none => simp [wellFormedItem] at h
    | some p =>
      obtain ⟨rc⟩ := p
      cases rc with
      | none => simp [wellFormedItem] at h
      | some rc =>
        cases rc with
        | nil => simp [wellFormedItem] at h
        | cons c cs =>
          exact ⟨⟨.agent, none, none, some c⟩, by intro M; simp [pushItem], rfl, rfl,
            Or.inr ⟨rfl, rfl⟩⟩

theorem foldl_pushItem_wellFormed (items : List ResponseMessage)
    (hwf : ∀ item ∈ items, wellFormedItem item = true) :
    (items.foldl pushItem []).length = items.length ∧
      ∀ (i : Nat) (item : ResponseMessage), items[i]? = some item →
        ∃ m : Message, (items.foldl pushItem [])[i]? = some m ∧ pushItem [] item = [m] ∧
          m.type = MessageType.agent ∧ m.id = none ∧
          ((m.text.isSome = true ∧ m.payload = none) ∨
            (m.text = none ∧ m.payload.isSome = true)) := by
  induction items using List.reverseRecOn with
  | nil => simp
  | append_singleton xs x ih =>
    obtain ⟨hlen, hall⟩ := ih (fun item hmem => hwf item (by simp [hmem]))
    obtain ⟨m, hpush, hm⟩ := pushItem_wellFormed x (hwf x (by simp))
    have hfold : (xs ++ [x]).foldl pushItem [] = xs.foldl pushItem [] ++ [m] := by
      simp [List.foldl_append, hpush]
    rw [hfold]
    refine ⟨by simp [hlen], ?_⟩
    intro i item hi
    by_cases hlt : i < xs.length
    · rw [List.getElem?_append_left hlt] at hi
      obtain ⟨m', hm', hrest⟩ := hall i item hi
      refine ⟨m', ?_, hrest⟩
      rw [List.getElem?_append_left (by omega)]
      exact hm'
    · have hge : xs.length ≤ i := by omega
      rw [List.getElem?_append_right hge] at hi
      have hi0 : i - xs.length = 0 := by
        by_contra hne
        rw [List.getElem?_eq_none (by simp; omega)] at hi
        cases hi
      rw [hi0] at hi
      simp at hi
      subst hi
      refine ⟨m, ?_, by simpa using hpush [], hm⟩
      rw [List.getElem?_append_right (by omega), hlen, hi0]
      simp

theorem resolve_wellFormed (rms : List ResponseMessage) (target : Message)
    (hne : rms ≠ []) (hwf : ∀ item ∈ rms, wellFormedItem item = true) :
    ∃ resolved, resolve rms target = .ok resolved := by
  cases rms with
  | nil => exact absurd rfl hne
  | cons first rest =>
    have h := hwf first (by simp)
    obtain ⟨text, payload⟩ := first
    cases text with
    | some t =>
      obtain ⟨l⟩ := t
      cases l with
      | none => simp [wellFormedItem] at h
      | some l => exact ⟨_, by simp [resolve]; rfl⟩
    | none =>
      cases payload with
      | none => simp [wellFormedItem] at h
      | some p => exact ⟨_, by simp [resolve]; rfl⟩

/-- C5: for a log with a matching placeholder and a well-formed response
with `N > 1` items, in either mode, the update returns the log with the
placeholder resolved followed by `N - 1` new entries, so the length grows
by `N - 1`; entry `i` is the message pushed for response item `i + 1`
(response order), has type agent, and holds either a text or a payload,
never both. -/
theorem updateAgentMessage_appends_rest (L : List Message) (v : String) (e : Bool)
    (r : APIResponse) (qr : QueryResult) (rms : List ResponseMessage) (fromEvent : Bool)
    (hr : r.queryResult = some qr) (hrm : qr.responseMessages = some rms)
    (hN : 1 < rms.length) (hwf : ∀ item ∈ rms, wellFormedItem item = true)
    (hex : ∃ m ∈ L, matchesLookup fromEvent (qr.text.getD "") m = true) :
    ∃ j target resolved appended, L[j]? = some target ∧
      resolve rms target = .ok resolved ∧
      updateAgentMessage r fromEvent ⟨L, v, e⟩ = .ok ⟨L.set j resolved ++ appended, v, e⟩ ∧
      (L.set j resolved ++ appended).length = L.length + (rms.length - 1) ∧
      appended.length = rms.length - 1 ∧
      ∀ i, i < rms.length - 1 →
        ∃ (m : Message) (item : ResponseMessage),
          appended[i]? = some m ∧ rms[i + 1]? = some item ∧ pushItem [] item = [m] ∧
          m.type = MessageType.agent ∧ m.id = none ∧
          ((m.text.isSome = true ∧ m.payload = none) ∨
            (m.text = none ∧ m.payload.isSome = true)) := by
  have hL : L ≠ [] := by
    obtain ⟨m, hmem, _⟩ := hex
    exact List.ne_nil_of_mem hmem
  obtain ⟨j, target, hj, ht, hmatch, _⟩ :=
    scan_target_of_match fromEvent (qr.text.getD "") L hex
  have hne : rms ≠ [] := by
    intro h; rw [h] at hN; simp at hN
  obtain ⟨resolved, hres⟩ := resolve_wellFormed rms target hne hwf
  have hrms : qr.responseMessages.getD [] = rms := by simp [hrm]
  have hupd := updateAgentMessage_nonfailure L v e r qr fromEvent hL hr j target hj ht
  rw [guard70_of_matchesLookup _ _ _ hmatch, hrms, hres] at hupd
  obtain ⟨hlen, hall⟩ := foldl_pushItem_wellFormed (rms.drop 1)
    (fun item hmem => hwf item (List.mem_of_mem_drop hmem))
  have hdlen : (rms.drop 1).length = rms.length - 1 := by simp
  refine ⟨j, target, resolved, appendLoop rms [], ht, hres, ?_, ?_, ?_, ?_⟩
  · rw [hupd]
    simp only [if_true, Except.map]
    rw [appendLoop_eq]
  · simp only [List.length_append, List.length_set, appendLoop, hlen, hdlen]
  · simp only [appendLoop, hlen, hdlen]
  · intro i hi
    have hi' : i + 1 < rms.length := by omega
    have hitem : (rms.drop 1)[i]? = some rms[i + 1] := by
      rw [List.getElem?_drop]
      simp [Nat.add_comm 1 i, hi']
    obtain ⟨m, hm, hrest⟩ := hall i rms[i + 1] hitem
    exact ⟨m, rms[i + 1], hm, by simp [hi'], hrest⟩

/-- Witness of C5: three items resolve the placeholder and append two
messages, a payload and a text. -/
theorem updateAgentMessage_appends_rest_witness :
    (1 < threeItems.length ∧ (∀ item ∈ threeItems, wellFormedItem item = true) ∧
      updateAgentMessage ⟨some ⟨some "q", some threeItems⟩⟩ false
          ⟨[⟨.user, some "q", none, none⟩, ⟨.agent, some "...", some "q", none⟩], "", false⟩
        = .ok ⟨[⟨.user, some "q", none, none⟩, ⟨.agent, some "a", none, none⟩,
            ⟨.agent, none, none, some ["card"]⟩, ⟨.agent, some "b", none, none⟩], "", false⟩) ∧
    ∃ j target resolved appended,
      [(⟨.user, some "q", none, none⟩ : Message),
        ⟨.agent, some "...", some "q", none⟩][j]? = some target ∧
      resolve threeItems target = .ok resolved ∧
      updateAgentMessage ⟨some ⟨some "q", some threeItems⟩⟩ false
          ⟨[⟨.user, some "q", none, none⟩, ⟨.agent, some "...", some "q", none⟩], "", false⟩
        = .ok ⟨[(⟨.user, some "q", none, none⟩ : Message),
            ⟨.agent, some "...", some "q", none⟩].set j resolved ++ appended, "", false⟩ ∧
      ([(⟨.user, some "q", none, none⟩ : Message),
            ⟨.agent, some "...", some "q", none⟩].set j resolved ++ appended).length
        = [(⟨.user, some "q", none, none⟩ : Message),
            ⟨.agent, some "...", some "q", none⟩].length + (threeItems.length - 1) ∧
      appended.length = threeItems.length - 1 ∧
      ∀ i, i < threeItems.length - 1 →
        ∃ (m : Message) (item : ResponseMessage),
          appended[i]? = some m ∧ threeItems[i + 1]? = some item ∧ pushItem [] item = [m] ∧
          m.type = MessageType.agent ∧ m.id = none ∧
          ((m.text.isSome = true ∧ m.payload = none) ∨
            (m.text = none ∧ m.payload.isSome = true)) :=
  ⟨⟨by decide, by decide, by decide⟩,
   updateAgentMessage_appends_rest _ "" false ⟨some ⟨some "q", some threeItems⟩⟩
    ⟨some "q", some threeItems⟩ threeItems false rfl rfl (by decide) (by decide)
    ⟨⟨.agent, some "...", some "q", none⟩, by simp, by decide⟩⟩

/-- C6, the code at the failing input: the second response item is a text
item with an empty text list; the loop still pushes a message for it, one
with neither text nor payload. -/
theorem empty_text_list_is_pushed :
    updateAgentMessage ⟨some ⟨some "q", some [⟨some ⟨some ["a"]⟩, none⟩, ⟨some ⟨some []⟩, none⟩]⟩⟩
        false ⟨[⟨.agent, some "...", some "q", none⟩], "", false⟩
      = .ok ⟨[⟨.agent, some "a", none, none⟩, ⟨.agent, none, none, none⟩], "", false⟩ ∧
    pushItem [] ⟨some ⟨some []⟩, none⟩ = [⟨.agent, none, none, none⟩] ∧
    pushItem [] ⟨none, some ⟨some []⟩⟩ = [] := by
  decide

/-! ## The frame of a non-failure update -/

/-- Every result of the non-failure branch on a non-empty log is the old
log, possibly with the scan target resolved, followed by the messages of
the append loop. -/
theorem updateAgentMessage_ok_shape (L : List Message) (v : String) (e : Bool)
    (r : APIResponse) (qr : QueryResult) (fromEvent : Bool)
    (hL : L ≠ []) (hr : r.queryResult = some qr) :
    ∃ j target, L[j]? = some target ∧
      lastAgentIndex fromEvent (qr.text.getD "") L (L.length - 1) = .ok j ∧
      ∀ s', updateAgentMessage r fromEvent ⟨L, v, e⟩ = .ok s' →
        (guard70 fromEvent (qr.text.getD "") target = false ∧
          s' = ⟨L ++ appendLoop (qr.responseMessages.getD []) [], v, e⟩) ∨
        (guard70 fromEvent (qr.text.getD "") target = true ∧
          ∃ t, resolve (qr.responseMessages.getD []) target = .ok t ∧
            s' = ⟨L.set j t ++ appendLoop (qr.responseMessages.getD []) [], v, e⟩) := by
  obtain ⟨j, target, hj, ht, _, _⟩ := scan_target fromEvent (qr.text.getD "") L hL
  refine ⟨j, target, ht, hj, ?_⟩
  intro s' hs'
  rw [updateAgentMessage_nonfailure L v e r qr fromEvent hL hr j target hj ht] at hs'
  cases hg : guard70 fromEvent (qr.text.getD "") target with
  | false =>
    left
    rw [hg] at hs'
    simp only [Bool.false_eq_true, if_false] at hs'
    rw [appendLoop_eq] at hs'
    cases hs'
    exact ⟨rfl, rfl⟩
  | true =>
    right
    rw [hg] at hs'
    simp only [if_true] at hs'
    cases hres : resolve (qr.responseMessages.getD []) target with
    | error err =>
      rw [hres] at hs'
      simp [Except.map] at hs'
    | ok t =>
      rw [hres] at hs'
      simp only [Except.map] at hs'
      rw [appendLoop_eq] at hs'
      cases hs'
      exact ⟨rfl, t, rfl, rfl⟩

theorem resolve_of_readable (rms : List ResponseMessage) (target : Message)
    (h : firstItemReadable rms = true) : ∃ t, resolve rms target = .ok t := by
  unfold firstItemReadable at h
  unfold resolve
  cases h0 : rms[0]? with
  | none => simp [h0] at h
  | some first =>
    simp only [h0] at h ⊢
    cases h1 : first.text with
    | none =>
      simp only []
      cases first.payload with
      | none => exact ⟨_, rfl⟩
      | some p => exact ⟨_, rfl⟩
    | some tf =>
      simp only [h1] at h ⊢
      cases h2 : tf.text with
      | none => simp [h2] at h
      | some l => exact ⟨_, rfl⟩

/-- A non-failure update on a non-empty log returns a log as soon as the
first response item is readable. -/
theorem updateAgentMessage_returns (L : List Message) (v : String) (e : Bool)
    (r : APIResponse) (qr : QueryResult) (fromEvent : Bool)
    (hL : L ≠ []) (hr : r.queryResult = some qr)
    (hread : firstItemReadable (qr.responseMessages.getD []) = true) :
    ∃ s', updateAgentMessage r fromEvent ⟨L, v, e⟩ = .ok s' := by
  obtain ⟨j, target, hj, ht, _, _⟩ := scan_target fromEvent (qr.text.getD "") L hL
  rw [updateAgentMessage_nonfailure L v e r qr fromEvent hL hr j target hj ht]
  obtain ⟨t, hres⟩ := resolve_of_readable (qr.responseMessages.getD []) target hread
  rw [hres]
  split
  · exact ⟨_, rfl⟩
  · exact ⟨_, rfl⟩

/-- C8: the log is append-only except for the in-place resolution. For a
non-empty log `L` and a non-failure response there is one index `j`, the
scan target, such that every log the update returns is at least as long as
`L` and agrees with `L` at every index below `|L|` other than `j`; the
update does return a log whenever the first response item is readable; and
a returned log shorter than `L` can only come from the failure response
`{}`. -/
theorem log_append_only (L : List Message) (v : String) (e : Bool)
    (r : APIResponse) (qr : QueryResult) (fromEvent : Bool)
    (hL : L ≠ []) (hr : r.queryResult = some qr) :
    ∃ j, j < L.length ∧
      (∀ s', updateAgentMessage r fromEvent ⟨L, v, e⟩ = .ok s' →
        L.length ≤ s'.messages.length ∧
        ∀ i, i < L.length → i ≠ j → s'.messages[i]? = L[i]?) ∧
      (firstItemReadable (qr.responseMessages.getD []) = true →
        ∃ s', updateAgentMessage r fromEvent ⟨L, v, e⟩ = .ok s') ∧
      (∀ (r' : APIResponse) (fromEvent' : Bool) (s' : AppState),
        updateAgentMessage r' fromEvent' ⟨L, v, e⟩ = .ok s' →
        s'.messages.length < L.length → r'.queryResult = none) := by
  obtain ⟨j, target, ht, _, hshape⟩ := updateAgentMessage_ok_shape L v e r qr fromEvent hL hr
  have hjlt : j < L.length := by
    by_contra hge
    rw [List.getElem?_eq_none (by omega)] at ht
    cases ht
  refine ⟨j, hjlt, ?_, updateAgentMessage_returns L v e r qr fromEvent hL hr, ?_⟩
  · intro s' hs'
    rcases hshape s' hs' with ⟨_, rfl⟩ | ⟨_, t, _, rfl⟩
    · refine ⟨by simp, ?_⟩
      intro i hi _
      simp [List.getElem?_append_left hi]
    · refine ⟨by simp, ?_⟩
      intro i hi hij
      rw [List.getElem?_append_left (by simpa using hi)]
      simp [List.getElem?_set, Ne.symm hij]
  · intro r' fromEvent' s' hs' hshort
    cases hq : r'.queryResult with
    | none => rfl
    | some qr' =>
      exfalso
      obtain ⟨j', target', _, _, hshape'⟩ :=
        updateAgentMessage_ok_shape L v e r' qr' fromEvent' hL hq
      rcases hshape' s' hs' with ⟨_, rfl⟩ | ⟨_, t, _, rfl⟩
      · simp at hshort
      · simp at hshort

/-- Witness of C8: resolving the later of two placeholders changes index 2
only. -/
theorem log_append_only_witness :
    (twoPending ≠ [] ∧
      updateAgentMessage (textResponse "hi" ["yo"]) true ⟨twoPending, "", false⟩
        = .ok ⟨[⟨.agent, some "...", some "hi", none⟩, ⟨.user, some "again", none, none⟩,
            ⟨.agent, some "yo", none, none⟩], "", false⟩) ∧
    ∃ j, j < twoPending.length ∧
      (∀ s', updateAgentMessage (textResponse "hi" ["yo"]) true ⟨twoPending, "", false⟩ = .ok s' →
        twoPending.length ≤ s'.messages.length ∧
        ∀ i, i < twoPending.length → i ≠ j → s'.messages[i]? = twoPending[i]?) ∧
      (firstItemReadable
          ((some [⟨some ⟨some ["yo"]⟩, none⟩] : Option (List ResponseMessage)).getD []) = true →
        ∃ s', updateAgentMessage (textResponse "hi" ["yo"]) true ⟨twoPending, "", false⟩ = .ok s') ∧
      (∀ (r' : APIResponse) (fromEvent' : Bool) (s' : AppState),
        updateAgentMessage r' fromEvent' ⟨twoPending, "", false⟩ = .ok s' →
        s'.messages.length < twoPending.length → r'.queryResult = none) :=
  ⟨⟨by decide, by decide⟩,
   log_append_only twoPending "" false (textResponse "hi" ["yo"])
    ⟨some "hi", some [⟨some ⟨some ["yo"]⟩, none⟩]⟩ true (by decide) rfl⟩

/-! ## Resolved messages -/

theorem guard70_settled (fromEvent : Bool) (messageSent : String) (m : Message)
    (hid : m.id = none) (htext : m.text ≠ some "...") :
    guard70 fromEvent messageSent m = false := by
  cases fromEvent <;> simp [guard70, hid, htext]

theorem filter_keeps_settled (L : List Message) (i : Nat) (m : Message)
    (hm : L[i]? = some m) (htext : m.text ≠ some "...") :
    (L.filter (fun m => m.text != some "..."))[indexAfterFailure L i]? = some m := by
  obtain ⟨hi, hget⟩ := List.getElem?_eq_some.mp hm
  have hsplit : L = L.take i ++ m :: L.drop (i + 1) := by
    rw [← hget]
    simp
  have hkeep : (m.text != some "...") = true := by simp [bne, htext]
  have hf : L.filter (fun m => m.text != some "...")
      = (L.take i).filter (fun m => m.text != some "...")
        ++ m :: (L.drop (i + 1)).filter (fun m => m.text != some "...") := by
    conv_lhs => rw [hsplit]
    rw [List.filter_append, List.filter_cons]
    simp only [hkeep, if_true]
  rw [hf, indexAfterFailure, List.getElem?_append_right (le_refl _)]
  simp

/-- A message without id whose text is not the marker survives every
update: in place after a non-failure response, behind the kept messages
after the failure response. -/
theorem updateAgentMessage_keeps_settled (L : List Message) (v : String) (e : Bool)
    (i : Nat) (m : Message) (hm : L[i]? = some m) (hid : m.id = none)
    (htext : m.text ≠ some "...") (r : APIResponse) (fromEvent : Bool) (s' : AppState)
    (hs' : updateAgentMessage r fromEvent ⟨L, v, e⟩ = .ok s') :
    (r.queryResult ≠ none → s'.messages[i]? = some m) ∧
      (r.queryResult = none → s'.messages[indexAfterFailure L i]? = some m) := by
  obtain ⟨hi, hget⟩ := List.getElem?_eq_some.mp hm
  have hL : L ≠ [] := List.ne_nil_of_mem (List.getElem?_mem hm)
  constructor
  · intro hq
    obtain ⟨qr, hqr⟩ := Option.ne_none_iff_exists'.mp hq
    obtain ⟨j, target, ht, _, hshape⟩ :=
      updateAgentMessage_ok_shape L v e r qr fromEvent hL hqr
    rcases hshape s' hs' with ⟨_, rfl⟩ | ⟨hg, t, _, rfl⟩
    · simp [List.getElem?_append_left hi, hm]
    · have hij : j ≠ i := by
        intro h
        subst h
        rw [hm] at ht
        cases ht
        rw [guard70_settled fromEvent _ m hid htext] at hg
        cases hg
      show (L.set j t ++ _)[i]? = some m
      rw [List.getElem?_append_left (by simpa using hi)]
      simp [List.getElem?_set, hij, hm]
  · intro hq
    have hr : r = ⟨none⟩ := by
      cases r
      simp_all
    subst hr
    simp only [updateAgentMessage] at hs'
    cases hs'
    exact filter_keeps_settled L i m hm htext

/-- Counterexample to C9: the placeholder for `q` is resolved to the text
`'...'` (id cleared). The resolved message is removed by a later failure
response, and a later event response resolves it a second time. -/
theorem resolved_marker_text_counterexample :
    updateAgentMessage (textResponse "q" ["..."]) false
        ⟨[⟨.agent, some "...", some "q", none⟩], "", false⟩
      = .ok ⟨[⟨.agent, some "...", none, none⟩], "", false⟩ ∧
    updateAgentMessage ⟨none⟩ false ⟨[⟨.agent, some "...", none, none⟩], "", false⟩
      = .ok ⟨[], "", true⟩ ∧
    updateAgentMessage (textResponse "event" ["again"]) true
        ⟨[⟨.agent, some "...", none, none⟩], "", false⟩
      = .ok ⟨[⟨.agent, some "again", none, none⟩], "", false⟩ := by
  decide

/-- A message without id whose text is not the marker is kept by every
single call: `addMessage` and the two updates of `addUserMessage` keep it at
its index, an update with a non-failure response keeps it at its index, the
failure response keeps it behind the messages kept before it, and so does a
whole `addUserMessage` round. -/
theorem settled_message_kept (L : List Message) (v : String) (e : Bool)
    (i : Nat) (m : Message) (hm : L[i]? = some m) (hid : m.id = none)
    (htext : m.text ≠ some "...") :
    (∀ x, (addMessage x ⟨L, v, e⟩).messages[i]? = some m) ∧
    (addUserMessageBeforeResponse ⟨L, v, e⟩).messages[i]? = some m ∧
    (∀ r fromEvent s', updateAgentMessage r fromEvent ⟨L, v, e⟩ = .ok s' →
      (r.queryResult ≠ none → s'.messages[i]? = some m) ∧
      (r.queryResult = none → s'.messages[indexAfterFailure L i]? = some m)) ∧
    (∀ r s', addUserMessage r ⟨L, v, e⟩ = .ok s' →
      (r.queryResult ≠ none → s'.messages[i]? = some m) ∧
      (r.queryResult = none → s'.messages[indexAfterFailure L i]? = some m)) := by
  obtain ⟨hi, hget⟩ := List.getElem?_eq_some.mp hm
  have hpre : ∀ extra : List Message, (L ++ extra)[i]? = some m := by
    intro extra
    rw [List.getElem?_append_left hi]
    exact hm
  refine ⟨?_, ?_, ?_, ?_⟩
  · intro x
    exact hpre _
  · have := hpre [⟨.user, some v, none, none⟩, ⟨.agent, some "...", some v, none⟩]
    simpa [addUserMessageBeforeResponse, addMessage] using this
  · intro r fromEvent s' hs'
    exact updateAgentMessage_keeps_settled L v e i m hm hid htext r fromEvent s' hs'
  · intro r s' hs'
    have hstate : addUserMessageBeforeResponse ⟨L, v, e⟩
        = ⟨L ++ [⟨.user, some v, none, none⟩, ⟨.agent, some "...", some v, none⟩], "", e⟩ := by
      simp [addUserMessageBeforeResponse, addMessage]
    rw [addUserMessage, hstate] at hs'
    have h := updateAgentMessage_keeps_settled _ "" e i m (hpre _) hid htext r false s' hs'
    have hidx : indexAfterFailure
        (L ++ [⟨.user, some v, none, none⟩, ⟨.agent, some "...", some v, none⟩]) i
        = indexAfterFailure L i := by
      simp [indexAfterFailure, List.take_append_of_le_length (Nat.le_of_lt hi)]
    rw [hidx] at h
    exact h

theorem indexAfterFailure_le (L : List Message) (i : Nat) : indexAfterFailure L i ≤ i := by
  unfold indexAfterFailure
  calc ((L.take i).filter (fun m => m.text != some "...")).length
      ≤ (L.take i).length := List.length_filter_le _ _
    _ ≤ i := by simp

/-- One call keeps a message without id whose text is not the marker, at
its index or before it. -/
theorem step_keeps_settled (s : AppState) (i : Nat) (m : Message)
    (hm : s.messages[i]? = some m) (hid : m.id = none) (htext : m.text ≠ some "...")
    (op : Op) (s' : AppState) (hs' : step op s = .ok s') :
    ∃ k, k ≤ i ∧ s'.messages[k]? = some m := by
  obtain ⟨L, v, e⟩ := s
  obtain ⟨hadd, _, hupd, hround⟩ := settled_message_kept L v e i m hm hid htext
  cases op with
  | addMessage x =>
    simp only [step] at hs'
    cases hs'
    exact ⟨i, le_refl _, hadd x⟩
  | updateAgentMessage r fromEvent =>
    simp only [step] at hs'
    obtain ⟨h1, h2⟩ := hupd r fromEvent s' hs'
    by_cases hq : r.queryResult = none
    · exact ⟨_, indexAfterFailure_le L i, h2 hq⟩
    · exact ⟨i, le_refl _, h1 hq⟩
  | addUserMessage r =>
    simp only [step] at hs'
    obtain ⟨h1, h2⟩ := hround r s' hs'
    by_cases hq : r.queryResult = none
    · exact ⟨_, indexAfterFailure_le L i, h2 hq⟩
    · exact ⟨i, le_refl _, h1 hq⟩

/-- Any sequence of calls keeps a message without id whose text is not the
marker. -/
theorem run_keeps_settled (ops : List Op) :
    ∀ (s : AppState) (i : Nat) (m : Message), s.messages[i]? = some m → m.id = none →
      m.text ≠ some "..." → ∀ s', run ops s = .ok s' →
      ∃ k, k ≤ i ∧ s'.messages[k]? = some m := by
  induction ops with
  | nil =>
    intro s i m hm _ _ s' hs'
    simp only [run] at hs'
    cases hs'
    exact ⟨i, le_refl _, hm⟩
  | cons op rest ih =>
    intro s i m hm hid htext s' hs'
    simp only [run] at hs'
    cases hstep : step op s with
    | error err =>
      rw [hstep] at hs'
      cases hs'
    | ok s1 =>
      rw [hstep] at hs'
      obtain ⟨k, hk, hmk⟩ := step_keeps_settled s i m hm hid htext op s1 hstep
      obtain ⟨k', hk', hmk'⟩ := ih s1 k m hmk hid htext s' hs'
      exact ⟨k', le_trans hk' hk, hmk'⟩

/-- What lines 71-83 leave in the target when the first response item is a
payload item, or a text item whose first text is not the marker: no id,
and a text that is not the marker. -/
theorem resolve_settles (rms : List ResponseMessage) (first : ResponseMessage)
    (target : Message) (hfirst : rms[0]? = some first)
    (hcontent : (first.text = none ∧ first.payload.isSome = true) ∨
      (∃ l, first.text = some ⟨some l⟩ ∧ l[0]? ≠ some "...")) :
    ∃ resolved, resolve rms target = .ok resolved ∧ resolved.id = none ∧
      resolved.text ≠ some "..." ∧ resolved.type = target.type ∧
      (first.text = none → resolved.text = none ∧
        resolved.payload = ((first.payload.bind (fun p => p.richContent)).getD [])[0]?) ∧
      (∀ l, first.text = some ⟨some l⟩ → resolved.text = l[0]? ∧
        resolved.payload = target.payload) := by
  rcases hcontent with ⟨htx, hpl⟩ | ⟨l, htx, hl⟩
  · obtain ⟨p, hp⟩ := Option.isSome_iff_exists.mp hpl
    refine ⟨⟨target.type, none, none, (p.richContent.getD [])[0]?⟩,
      ?_, rfl, by simp, rfl, ?_, ?_⟩
    · simp [resolve, hfirst, htx, hp]
    · intro _
      refine ⟨rfl, ?_⟩
      cases hrc : p.richContent <;> simp [hp, hrc]
    · intro l hl
      rw [htx] at hl
      cases hl
  · refine ⟨⟨target.type, l[0]?, none, target.payload⟩, ?_, rfl, hl, rfl, ?_, ?_⟩
    · simp [resolve, hfirst, htx]
    · intro h
      rw [htx] at h
      cases h
    · intro l' hl'
      rw [htx] at hl'
      cases hl'
      exact ⟨rfl, rfl⟩

/-- C9 as amended: when `updateAgentMessage`, in either mode, resolves the
matching placeholder by a first response item that is a payload item, or a
text item whose first text is not the literal marker `'...'`, the resolved
message has its pending key cleared and a text other than the marker, and no
later call changes or removes it. `addMessage` and the two updates of
`addUserMessage` keep it at its index; an update with a non-failure
response, in either mode, keeps it at its index, so it is never resolved a
second time; the failure response keeps it, behind the messages kept before
it; so does a whole `addUserMessage` round; and after any sequence of such
calls it is still in the log, at its index or before it. -/
theorem resolved_is_terminal (L : List Message) (v : String) (e : Bool)
    (r : APIResponse) (qr : QueryResult) (fromEvent : Bool) (first : ResponseMessage)
    (hr : r.queryResult = some qr)
    (hex : ∃ m ∈ L, matchesLookup fromEvent (qr.text.getD "") m = true)
    (hfirst : (qr.responseMessages.getD [])[0]? = some first)
    (hcontent : (first.text = none ∧ first.payload.isSome = true) ∨
      (∃ l, first.text = some ⟨some l⟩ ∧ l[0]? ≠ some "...")) :
    ∃ j target resolved s1,
      L[j]? = some target ∧
      matchesLookup fromEvent (qr.text.getD "") target = true ∧
      resolve (qr.responseMessages.getD []) target = .ok resolved ∧
      updateAgentMessage r fromEvent ⟨L, v, e⟩ = .ok s1 ∧
      s1.messages[j]? = some resolved ∧
      resolved.id = none ∧ resolved.text ≠ some "..." ∧
      (first.text = none → resolved.text = none ∧
        resolved.payload = ((first.payload.bind (fun p => p.richContent)).getD [])[0]?) ∧
      (∀ l, first.text = some ⟨some l⟩ → resolved.text = l[0]? ∧
        resolved.payload = target.payload) ∧
      (∀ x, (addMessage x s1).messages[j]? = some resolved) ∧
      (addUserMessageBeforeResponse s1).messages[j]? = some resolved ∧
      (∀ r' fromEvent' s2, updateAgentMessage r' fromEvent' s1 = .ok s2 →
        (r'.queryResult ≠ none → s2.messages[j]? = some resolved) ∧
        (r'.queryResult = none →
          s2.messages[indexAfterFailure s1.messages j]? = some resolved)) ∧
      (∀ r' s2, addUserMessage r' s1 = .ok s2 →
        (r'.queryResult ≠ none → s2.messages[j]? = some resolved) ∧
        (r'.queryResult = none →
          s2.messages[indexAfterFailure s1.messages j]? = some resolved)) ∧
      (∀ ops s2, run ops s1 = .ok s2 → ∃ k, k ≤ j ∧ s2.messages[k]? = some resolved) := by
  have hL : L ≠ [] := by
    obtain ⟨m, hmem, _⟩ := hex
    exact List.ne_nil_of_mem hmem
  obtain ⟨j, target, hj, ht, hmatch, _⟩ :=
    scan_target_of_match fromEvent (qr.text.getD "") L hex
  have hjlt : j < L.length := by
    by_contra hge
    rw [List.getElem?_eq_none (by omega)] at ht
    cases ht
  obtain ⟨resolved, hres, hid, htext, _, hpay, htxt⟩ :=
    resolve_settles (qr.responseMessages.getD []) first target hfirst hcontent
  have hupd := updateAgentMessage_nonfailure L v e r qr fromEvent hL hr j target hj ht
  rw [guard70_of_matchesLookup _ _ _ hmatch, hres] at hupd
  simp only [if_true, Except.map] at hupd
  rw [appendLoop_eq] at hupd
  have hat : (L.set j resolved ++ appendLoop (qr.responseMessages.getD []) [])[j]?
      = some resolved := by
    rw [List.getElem?_append_left (by simpa using hjlt)]
    simp [hjlt]
  obtain ⟨hadd, hbefore, hupd', hround⟩ :=
    settled_message_kept (L.set j resolved ++ appendLoop (qr.responseMessages.getD []) [])
      v e j resolved hat hid htext
  exact ⟨j, target, resolved, _, ht, hmatch, hres, hupd, hat, hid, htext, hpay, htxt,
    hadd, hbefore, hupd', hround,
    fun ops s2 hs2 => run_keeps_settled ops _ j resolved hat hid htext s2 hs2⟩

/-- Witness of C9 as amended: the placeholder for `q` is resolved to the
payload `card`; the failure response and a later event response leave the
resolved message as it is. -/
theorem resolved_is_terminal_witness :
    (updateAgentMessage ⟨some ⟨some "q", some [⟨none, some ⟨some [["card"]]⟩⟩]⟩⟩ false
          ⟨[⟨.user, some "q", none, none⟩, ⟨.agent, some "...", some "q", none⟩], "", false⟩
        = .ok ⟨[⟨.user, some "q", none, none⟩, ⟨.agent, none, none, some ["card"]⟩],
            "", false⟩ ∧
      updateAgentMessage ⟨none⟩ false
          ⟨[⟨.user, some "q", none, none⟩, ⟨.agent, none, none, some ["card"]⟩], "", false⟩
        = .ok ⟨[⟨.user, some "q", none, none⟩, ⟨.agent, none, none, some ["card"]⟩],
            "", true⟩ ∧
      updateAgentMessage (textResponse "event" ["again"]) true
          ⟨[⟨.user, some "q", none, none⟩, ⟨.agent, none, none, some ["card"]⟩], "", false⟩
        = .ok ⟨[⟨.user, some "q", none, none⟩, ⟨.agent, none, none, some ["card"]⟩],
            "", false⟩) ∧
    ∃ j target resolved s1,
      [(⟨.user, some "q", none, none⟩ : Message),
        ⟨.agent, some "...", some "q", none⟩][j]? = some target ∧
      matchesLookup false ((some "q" : Option String).getD "") target = true ∧
      resolve ((some [⟨none, some ⟨some [["card"]]⟩⟩] : Option (List ResponseMessage)).getD [])
        target = .ok resolved ∧
      updateAgentMessage ⟨some ⟨some "q", some [⟨none, some ⟨some [["card"]]⟩⟩]⟩⟩ false
          ⟨[⟨.user, some "q", none, none⟩, ⟨.agent, some "...", some "q", none⟩], "", false⟩
        = .ok s1 ∧
      s1.messages[j]? = some resolved ∧
      resolved.id = none ∧ resolved.text ≠ some "..." ∧
      ((⟨none, some ⟨some [["card"]]⟩⟩ : ResponseMessage).text = none →
        resolved.text = none ∧
        resolved.payload = (((⟨none, some ⟨some [["card"]]⟩⟩ : ResponseMessage).payload.bind
          (fun p => p.richContent)).getD [])[0]?) ∧
      (∀ l, (⟨none, some ⟨some [["card"]]⟩⟩ : ResponseMessage).text = some ⟨some l⟩ →
        resolved.text = l[0]? ∧ resolved.payload = target.payload) ∧
      (∀ x, (addMessage x s1).messages[j]? = some resolved) ∧
      (addUserMessageBeforeResponse s1).messages[j]? = some resolved ∧
      (∀ r' fromEvent' s2, updateAgentMessage r' fromEvent' s1 = .ok s2 →
        (r'.queryResult ≠ none → s2.messages[j]? = some resolved) ∧
        (r'.queryResult = none →
          s2.messages[indexAfterFailure s1.messages j]? = some resolved)) ∧
      (∀ r' s2, addUserMessage r' s1 = .ok s2 →
        (r'.queryResult ≠ none → s2.messages[j]? = some resolved) ∧
        (r'.queryResult = none →
          s2.messages[indexAfterFailure s1.messages j]? = some resolved)) ∧
      (∀ ops s2, run ops s1 = .ok s2 → ∃ k, k ≤ j ∧ s2.messages[k]? = some resolved) :=
  ⟨⟨by decide, by decide, by decide⟩,
   resolved_is_terminal [⟨.user, some "q", none, none⟩, ⟨.agent, some "...", some "q", none⟩]
    "" false ⟨some ⟨some "q", some [⟨none, some ⟨some [["card"]]⟩⟩]⟩⟩
    ⟨some "q", some [⟨none, some ⟨some [["card"]]⟩⟩]⟩ false ⟨none, some ⟨some [["card"]]⟩⟩
    rfl ⟨⟨.agent, some "...", some "q", none⟩, by simp, by decide⟩ rfl
    (Or.inl ⟨rfl, rfl⟩)⟩

/-! ## Totality -/

/-- Counterexample to C10: the log is non-empty, the response has a
`queryResult`, one item, and that text item has a text list, the empty one.
The update returns, but the read `responseText[0]` is out of range: its
value `undefined` becomes the text of the placeholder. -/
theorem empty_text_list_read_counterexample :
    ([] : List String)[0]? = none ∧
    resolve [⟨some ⟨some []⟩, none⟩] ⟨.agent, some "...", some "q", none⟩
      = .ok ⟨.agent, none, none, none⟩ ∧
    updateAgentMessage (textResponse "q" []) false
        ⟨[⟨.agent, some "...", some "q", none⟩], "", false⟩
      = .ok ⟨[⟨.agent, none, none, none⟩], "", false⟩ := by
  decide

/-- C10 as amended: for a non-empty log and a non-failure response with a
non-empty `responseMessages` and a text list on every text item, in either
mode, the update returns a log: the scan ends on an index `j`,
`messagesCopy[j]` and `responseMessages[0]` are defined, and no `TypeError`
is raised. The read `responseText[0]` of the resolution is defined when the
text list is non-empty; its value is then the text given to the target. -/
theorem updateAgentMessage_total (L : List Message) (v : String) (e : Bool)
    (r : APIResponse) (qr : QueryResult) (rms : List ResponseMessage) (fromEvent : Bool)
    (hL : L ≠ []) (hr : r.queryResult = some qr) (hrm : qr.responseMessages = some rms)
    (hne : rms ≠ [])
    (htl : ∀ item ∈ rms, ∀ tf, item.text = some tf → tf.text ≠ none) :
    ∃ j target first s',
      lastAgentIndex fromEvent (qr.text.getD "") L (L.length - 1) = .ok j ∧
      L[j]? = some target ∧ rms[0]? = some first ∧
      updateAgentMessage r fromEvent ⟨L, v, e⟩ = .ok s' ∧
      (∀ tf responseText, first.text = some tf → tf.text = some responseText →
        responseText ≠ [] → guard70 fromEvent (qr.text.getD "") target = true →
        ∃ x, responseText[0]? = some x ∧
          s'.messages[j]? = some { target with text := some x, id := none }) := by
  obtain ⟨first, rest, hrms⟩ := List.exists_cons_of_ne_nil hne
  have hgetD : qr.responseMessages.getD [] = rms := by simp [hrm]
  have hread : firstItemReadable (qr.responseMessages.getD []) = true := by
    rw [hgetD, hrms]
    simp only [firstItemReadable, List.getElem?_cons_zero]
    cases h1 : first.text with
    | none => rfl
    | some tf =>
      have := htl first (by simp [hrms]) tf h1
      simpa [Option.isSome_iff_ne_none] using this
  obtain ⟨s', hs'⟩ := updateAgentMessage_returns L v e r qr fromEvent hL hr hread
  obtain ⟨j, target, ht, hj, hshape⟩ := updateAgentMessage_ok_shape L v e r qr fromEvent hL hr
  have hjlt : j < L.length := by
    by_contra hge
    rw [List.getElem?_eq_none (by omega)] at ht
    cases ht
  refine ⟨j, target, first, s', hj, ht, by simp [hrms], hs', ?_⟩
  intro tf responseText h1 h2 hnil hg
  obtain ⟨x, xs, hx⟩ := List.exists_cons_of_ne_nil hnil
  refine ⟨x, by simp [hx], ?_⟩
  rcases hshape s' hs' with ⟨hg', _⟩ | ⟨_, t, hres, rfl⟩
  · rw [hg] at hg'
    cases hg'
  · rw [hgetD, hrms] at hres
    simp [resolve, h1, h2, hx] at hres
    subst hres
    show (L.set j _ ++ _)[j]? = _
    rw [List.getElem?_append_left (by simpa using hjlt)]
    simp [hjlt]

/-- Witness of C10 as amended: the scenario of the specification. -/
theorem updateAgentMessage_total_witness :
    ([(⟨.user, some "hello", none, none⟩ : Message),
        ⟨.agent, some "...", some "hello", none⟩] ≠ [] ∧
      [(⟨some ⟨some ["hi there"]⟩, none⟩ : ResponseMessage)] ≠ [] ∧
      (∀ item ∈ [(⟨some ⟨some ["hi there"]⟩, none⟩ : ResponseMessage)],
        ∀ tf, item.text = some tf → tf.text ≠ none)) ∧
    ∃ j target first s',
      lastAgentIndex true ((some "hello" : Option String).getD "")
        [⟨.user, some "hello", none, none⟩, ⟨.agent, some "...", some "hello", none⟩]
        ([(⟨.user, some "hello", none, none⟩ : Message),
          ⟨.agent, some "...", some "hello", none⟩].length - 1) = .ok j ∧
      [(⟨.user, some "hello", none, none⟩ : Message),
        ⟨.agent, some "...", some "hello", none⟩][j]? = some target ∧
      [(⟨some ⟨some ["hi there"]⟩, none⟩ : ResponseMessage)][0]? = some first ∧
      updateAgentMessage (textResponse "hello" ["hi there"]) true
        ⟨[⟨.user, some "hello", none, none⟩, ⟨.agent, some "...", some "hello", none⟩],
          "", false⟩ = .ok s' ∧
      (∀ tf responseText, first.text = some tf → tf.text = some responseText →
        responseText ≠ [] →
        guard70 true ((some "hello" : Option String).getD "") target = true →
        ∃ x, responseText[0]? = some x ∧
          s'.messages[j]? = some { target with text := some x, id := none }) :=
  ⟨⟨by decide, by decide, by simp⟩,
   updateAgentMessage_total _ "" false (textResponse "hello" ["hi there"])
    ⟨some "hello", some [⟨some ⟨some ["hi there"]⟩, none⟩]⟩
    [⟨some ⟨some ["hi there"]⟩, none⟩] true (by decide) rfl rfl (by decide) (by simp)⟩

end DialogflowMessenger
